import Mathlib

/-!
# bbmp_interop: owned channel data over type-erased backing storage

A shallow embedding of `src/bbmp_interop/types.hpp` and
`src/bbmp_interop/conversions.hpp`.

* Machine integers are `Nat` / `Int`; the `size_t` product in the channel
  pointer getter is reduced modulo `2 ^ 64`, and `static_cast<int>` is the
  twos-complement reading of the low 32 bits.
* Failing code (a thrown exception, a failed `assert`) returns `Except.error`.
* Stateful code passes the heap explicitly: `new` / `std::make_unique`
  allocate a cell, and a deleter call frees the cell and is logged.
* An element pointer `T*` is a block together with an offset counted in
  elements; pointer arithmetic moves the offset inside the block.
-/

namespace bbmp

/-! ## Machine integers and failures -/

/-- The value of `std::numeric_limits<int>::max()` for a 32-bit `int`. -/
def INT_MAX : Nat := 2 ^ 31 - 1

/-- The number of values of the 64-bit type `size_t`. -/
def SIZE_RANGE : Nat := 2 ^ 64

/-- The ways in which the embedded code stops without a result. -/
inductive Failure where
  -- a thrown `std::domain_error` with its message
  | domain_error (what : String)
  -- a failed `assert(expr)`
  | assertion_failed (expr : String)
  -- a `std::out_of_range` raised by `std::vector::at`
  | out_of_range
  -- the index error of `pybind11::array::shape(dim)` for `dim >= ndim()`
  | index_error
  -- the `std::bad_array_new_length` of `new T*[n]` for negative `n`
  | bad_array_new_length
  deriving DecidableEq, Repr

/-- The conversion `static_cast<int>(value)` of a `size_t` to a 32-bit `int`:
the low 32 bits of `value` read as a twos-complement number. -/
def static_cast_int (value : Nat) : Int :=
  if value % 2 ^ 32 < 2 ^ 31 then ((value % 2 ^ 32 : Nat) : Int)
  else ((value % 2 ^ 32 : Nat) : Int) - 2 ^ 32

/-- The conversion of an `int` to `size_t` (the usual arithmetic conversion
applied to the left operand of `num_ch * length`). -/
def int_to_size_t (n : Int) : Nat := (n % (SIZE_RANGE : Int)).toNat

/-- Embedding of `bbmp::asserted_static_cast_int` (types.hpp, lines 20-23). -/
def asserted_static_cast_int (value : Nat) : Except Failure Int :=
  if value ≤ INT_MAX then .ok (static_cast_int value)
  else .error (.assertion_failed "value <= std::numeric_limits<int>::max()")

/-! ## Memory model -/

/-- The address of an object allocated with `new` / `std::make_unique`. -/
abbrev Addr := Nat

/-- A block of element storage. -/
inductive Block where
  -- storage owned by an external allocator (the buffer of a numpy array)
  | foreign (id : Nat)
  -- the buffer of inner sequence `ix` of the nested vector at address `obj`
  | inner (obj : Addr) (ix : Nat)
  deriving DecidableEq, Repr

/-- An element pointer `T*`: a block and an offset counted in elements. -/
structure Ptr where
  block : Block
  off : Nat
  deriving DecidableEq, Repr

/-- The value held by a slot of `new T*[n]` before it is assigned. -/
def Ptr.indeterminate : Ptr := ⟨.foreign 0, 0⟩

/-- Pointer arithmetic `p + n`. -/
def Ptr.add (p : Ptr) (n : Nat) : Ptr := { p with off := p.off + n }

/-- The array descriptor `pybind11::array_t<T, 0>` at its boundary: the flag
word `flags()`, the extents (`ndim()` of them, read with `shape(dim)`), and
the base address returned by `mutable_unchecked().mutable_data()`. -/
structure NumpyNdarray where
  flags : Int
  shape : List Nat
  data : Ptr
  deriving DecidableEq, Repr

/-- The rank `ndim()`. -/
def NumpyNdarray.ndim (arr : NumpyNdarray) : Nat := arr.shape.length

/-- The extent `shape(dim)`; pybind11 raises an index error for `dim >= ndim()`. -/
def NumpyNdarray.shape_at (arr : NumpyNdarray) (dim : Nat) : Except Failure Nat :=
  match arr.shape[dim]? with
  | some n => .ok n
  | none => .error .index_error

/-- The element count `size()`: the product of the extents. -/
def NumpyNdarray.size (arr : NumpyNdarray) : Nat := arr.shape.prod

/-- The objects that this program moves onto the heap. -/
inductive HeapObject (α : Type) where
  | ndarray (arr : NumpyNdarray)
  | channels (v : List (List α))
  deriving DecidableEq, Repr

/-- The concrete type `T` that a deleter `delete static_cast<T*>(p)` was
instantiated with. -/
inductive ObjType where
  | ndarray
  | channels
  deriving DecidableEq, Repr

/-- The heap: one cell per allocation (`none` once freed) and the log of the
deleter calls made so far, oldest first. -/
structure Heap (α : Type) where
  cells : List (Option (HeapObject α))
  deleted : List (ObjType × Addr)
  deriving DecidableEq, Repr

/-- Allocation of a fresh object (`new T{...}`, `std::make_unique<T>(...)`). -/
def Heap.alloc {α : Type} (h : Heap α) (obj : HeapObject α) : Addr × Heap α :=
  (h.cells.length, { h with cells := h.cells ++ [some obj] })

/-- The statement `delete static_cast<T*>(p)`. -/
def Heap.delete_as {α : Type} (h : Heap α) (T : ObjType) (p : Addr) : Heap α :=
  { cells := h.cells.set p none, deleted := h.deleted ++ [(T, p)] }

/-- The read `*p` of an element pointer into an inner sequence of a live
nested vector; `none` is undefined behaviour. -/
def Heap.load {α : Type} (h : Heap α) (p : Ptr) : Option α :=
  match p.block with
  | .foreign _ => none
  | .inner obj ix =>
    match h.cells[obj]? with
    | some (some (.channels v)) =>
      match v[ix]? with
      | some row => row[p.off]?
      | none => none
    | _ => none

/-- The write `*p = x`; `none` is undefined behaviour. -/
def Heap.store {α : Type} (h : Heap α) (p : Ptr) (x : α) : Option (Heap α) :=
  match p.block with
  | .foreign _ => none
  | .inner obj ix =>
    match h.cells[obj]? with
    | some (some (.channels v)) =>
      match v[ix]? with
      | some row =>
        if p.off < row.length then
          some { h with cells := h.cells.set obj (some (.channels (v.set ix (row.set p.off x)))) }
        else none
      | none => none
    | _ => none

/-! ## Type-erased owning handle (types.hpp, lines 25-41) -/

/-- The handle `std::unique_ptr<void, void (*)(void*)>`: the stored address
(`none` is `nullptr`) and the bound deleter, named by the type it deletes as. -/
structure TypeErasedUniquePtr where
  ptr : Option Addr
  deleter : ObjType
  deriving DecidableEq, Repr

/-- Embedding of `makeTypeErasedUniquePtr(T* obj)` (lines 27-30). -/
def makeTypeErasedUniquePtr (T : ObjType) (obj : Option Addr) : TypeErasedUniquePtr :=
  { ptr := obj, deleter := T }

/-- Embedding of `makeTypeErasedUniquePtr(std::unique_ptr<T> obj)` (lines
32-36): the address is taken with `obj.release()`. -/
def makeTypeErasedUniquePtr_owned (T : ObjType) (obj : Option Addr) : TypeErasedUniquePtr :=
  { ptr := obj, deleter := T }

/-- Embedding of `moveOntoHeap` (lines 38-41): `std::make_unique<T>` of the
moved object; the result is the address held by the `std::unique_ptr<T>`. -/
def moveOntoHeap {α : Type} (obj : HeapObject α) (heap : Heap α) : Addr × Heap α :=
  heap.alloc obj

/-- Release of the handle (`reset()` or its destructor): a stored address is
passed to the deleter and the handle becomes empty; an empty handle does
nothing. -/
def TypeErasedUniquePtr.reset {α : Type} (h : TypeErasedUniquePtr) (heap : Heap α) :
    TypeErasedUniquePtr × Heap α :=
  match h.ptr with
  | none => (h, heap)
  | some p => ({ h with ptr := none }, heap.delete_as h.deleter p)

/-- Move construction of a handle: the pair (destination, source afterwards). -/
def TypeErasedUniquePtr.move (h : TypeErasedUniquePtr) :
    TypeErasedUniquePtr × TypeErasedUniquePtr :=
  (h, { h with ptr := none })

/-- The conversion `operator bool` of the handle. -/
def TypeErasedUniquePtr.toBool (h : TypeErasedUniquePtr) : Bool := h.ptr.isSome

/-! ## OwnedChannelData (types.hpp, lines 43-100) -/

/-- The data members of `OwnedChannelData<T>` (lines 81-84); `ptrs_` is a
`std::unique_ptr<T*[]>`, `none` when null. -/
structure OwnedChannelData where
  num_channels_ : Int
  length_ : Nat
  heap_object_ : TypeErasedUniquePtr
  ptrs_ : Option (List Ptr)
  deriving DecidableEq, Repr

/-- The loop of the constructor (lines 53-55), entered with counter `i`:
`for (; i < num_channels; ++i) ptrs_[i] = ch_ptr_getter(i);`. -/
def OwnedChannelData.fill (ch_ptr_getter : Int → Except Failure Ptr) (num_channels : Int)
    (i : Nat) (ptrs : List Ptr) : Except Failure (List Ptr) :=
  if (i : Int) < num_channels then
    match ch_ptr_getter (i : Int) with
    | .ok p => OwnedChannelData.fill ch_ptr_getter num_channels (i + 1) (ptrs.set i p)
    | .error e => .error e
  else .ok ptrs
termination_by (num_channels - (i : Int)).toNat
decreasing_by omega

/-- Embedding of the constructor of `OwnedChannelData` (lines 46-56). -/
def OwnedChannelData.ctor (owning_ptr : TypeErasedUniquePtr) (num_channels : Int)
    (length : Nat) (ch_ptr_getter : Int → Except Failure Ptr) :
    Except Failure OwnedChannelData :=
  if num_channels < 0 then .error .bad_array_new_length
  else
    match OwnedChannelData.fill ch_ptr_getter num_channels 0
        (List.replicate num_channels.toNat Ptr.indeterminate) with
    | .ok ptrs =>
      .ok { num_channels_ := num_channels
            length_ := length
            heap_object_ := owning_ptr.move.1
            ptrs_ := some ptrs }
    | .error e => .error e

/-- Embedding of `GetWriteChannelPtr` (lines 58-60): `ptrs_[channel_ix]`
without a bounds check; `none` is undefined behaviour. -/
def OwnedChannelData.GetWriteChannelPtr (d : OwnedChannelData) (channel_ix : Int) :
    Option Ptr :=
  match d.ptrs_ with
  | none => none
  | some t => if channel_ix < 0 then none else t[channel_ix.toNat]?

/-- Embedding of `GetReadChannelPtr` (lines 62-64). -/
def OwnedChannelData.GetReadChannelPtr (d : OwnedChannelData) (channel_ix : Int) :
    Option Ptr :=
  match d.ptrs_ with
  | none => none
  | some t => if channel_ix < 0 then none else t[channel_ix.toNat]?

/-- Embedding of `GetWritePtrs` (lines 66-68): `ptrs_.get()`. -/
def OwnedChannelData.GetWritePtrs (d : OwnedChannelData) : Option (List Ptr) := d.ptrs_

/-- Embedding of `GetReadPtrs` (lines 70-72). -/
def OwnedChannelData.GetReadPtrs (d : OwnedChannelData) : Option (List Ptr) := d.ptrs_

/-- Embedding of `operator bool` (line 74). -/
def OwnedChannelData.toBool (d : OwnedChannelData) : Bool := d.heap_object_.toBool

/-- Embedding of `length()` (line 76). -/
def OwnedChannelData.length (d : OwnedChannelData) : Nat := d.length_

/-- Embedding of `num_channels()` (line 78). -/
def OwnedChannelData.num_channels (d : OwnedChannelData) : Int := d.num_channels_

/-- The implicit member-wise move constructor: the pair (destination, source
afterwards). The scalars are copied, the two `unique_ptr` members are moved. -/
def OwnedChannelData.move (d : OwnedChannelData) : OwnedChannelData × OwnedChannelData :=
  ({ num_channels_ := d.num_channels_
     length_ := d.length_
     heap_object_ := d.heap_object_.move.1
     ptrs_ := d.ptrs_ },
   { num_channels_ := d.num_channels_
     length_ := d.length_
     heap_object_ := d.heap_object_.move.2
     ptrs_ := none })

/-- The implicit destructor: the pointer table is dropped and the handle
`heap_object_` is released. -/
def OwnedChannelData.destroy {α : Type} (d : OwnedChannelData) (heap : Heap α) : Heap α :=
  (d.heap_object_.reset heap).2

/-- Embedding of `createOwnedChannelData(std::vector<std::vector<T>>&&)`
(types.hpp, lines 87-100). The result is paired with the heap afterwards. -/
def createOwnedChannelData_vector {α : Type} (channelsData : List (List α)) (heap : Heap α) :
    Except Failure OwnedChannelData × Heap α :=
  if channelsData.length > 0 then
    let (raw_ptr, heap1) := heap.alloc (.channels channelsData)
    let heap_object := makeTypeErasedUniquePtr .channels (some raw_ptr)
    let get_ch_ptr : Int → Except Failure Ptr := fun num_ch =>
      if 0 ≤ num_ch ∧ num_ch.toNat < channelsData.length then
        .ok ⟨.inner raw_ptr num_ch.toNat, 0⟩
      else .error .out_of_range
    match asserted_static_cast_int channelsData.length with
    | .error e => (.error e, heap1)
    | .ok num_channels =>
      match channelsData[0]? with
      | none => (.error .out_of_range, (heap_object.reset heap1).2)
      | some first =>
        match OwnedChannelData.ctor heap_object num_channels first.length get_ch_ptr with
        | .ok r => (.ok r, heap1)
        | .error e => (.error e, (heap_object.reset heap1).2)
  else (.error (.assertion_failed "channelsData.size() > 0"), heap)

/-! ## Conversion from an array descriptor (conversions.hpp) -/

/-- The constant `NUMPY_ARRAY_C_CONTIGUOUS` (line 32). -/
def NUMPY_ARRAY_C_CONTIGUOUS : Int := 0x0001

/-- Embedding of `assert_c_contiguous` (lines 30-37). -/
def assert_c_contiguous (arr : NumpyNdarray) : Except Failure Unit :=
  if Int.land arr.flags NUMPY_ARRAY_C_CONTIGUOUS = 0 then
    .error (.domain_error "ndarray argument is not C contiguous")
  else .ok ()

/-- The shape logic of lines 52-60, read through `raw_ptr`: the pair
`(num_channels, length)`. -/
def ndarray_dims (obj : NumpyNdarray) : Except Failure (Int × Nat) :=
  if obj.ndim = 1 then
    match obj.shape_at 0 with
    | .ok s0 => .ok (1, s0)
    | .error e => .error e
  else if obj.ndim = 2 then
    match obj.shape_at 0 with
    | .ok s0 =>
      match asserted_static_cast_int s0 with
      | .ok n =>
        match obj.shape_at 1 with
        | .ok s1 => .ok (n, s1)
        | .error e => .error e
      | .error e => .error e
    | .error e => .error e
  else .ok (0, 0)

/-- The lambda `get_ch_ptr` of lines 62-64:
`mutable_data() + num_ch * length`, the product taken in `size_t`. -/
def ndarray_get_ch_ptr (obj : NumpyNdarray) (length : Nat) (num_ch : Int) : Ptr :=
  obj.data.add ((int_to_size_t num_ch * length) % SIZE_RANGE)

/-- Embedding of `createOwnedChannelData(NumpyNdarray<T>&&)`
(conversions.hpp, lines 41-66). The result is paired with the heap
afterwards; the object behind `raw_ptr` is the moved descriptor. -/
def createOwnedChannelData_ndarray {α : Type} (ndarray : NumpyNdarray) (heap : Heap α) :
    Except Failure OwnedChannelData × Heap α :=
  match assert_c_contiguous ndarray with
  | .error e => (.error e, heap)
  | .ok () =>
    if ndarray.ndim > 2 then
      (.error (.domain_error "At most two-dimensional arrays are supported."), heap)
    else
      let (raw_ptr, heap1) := moveOntoHeap (.ndarray ndarray) heap
      let heap_object := makeTypeErasedUniquePtr_owned .ndarray (some raw_ptr)
      match ndarray_dims ndarray with
      | .error e => (.error e, heap1)
      | .ok (num_channels, length) =>
        let get_ch_ptr : Int → Except Failure Ptr := fun num_ch =>
          .ok (ndarray_get_ch_ptr ndarray length num_ch)
        match OwnedChannelData.ctor heap_object num_channels length get_ch_ptr with
        | .ok r => (.ok r, heap1)
        | .error e => (.error e, (heap_object.reset heap1).2)


/-! ## Repeated release and concrete inputs -/

/-- Release of a handle `n` times in a row. -/
def release_times {α : Type} : Nat → TypeErasedUniquePtr → Heap α → TypeErasedUniquePtr × Heap α
  | 0, h, heap => (h, heap)
  | n + 1, h, heap => release_times n (h.reset heap).1 (h.reset heap).2

/-- An empty heap of `Nat` elements. -/
def example_heap : Heap Nat := { cells := [], deleted := [] }

/-- A C-contiguous rank-2 array of shape `(2, 4)`. -/
def example_rank2 : NumpyNdarray :=
  { flags := 0x0501, shape := [2, 4], data := ⟨.foreign 1, 16⟩ }

/-- A rank-3 array whose C-contiguity bit is clear. -/
def example_strided : NumpyNdarray :=
  { flags := 0x0500, shape := [2, 3, 4], data := ⟨.foreign 1, 0⟩ }

/-- A C-contiguous rank-3 array. -/
def example_rank3 : NumpyNdarray :=
  { flags := 0x0501, shape := [2, 3, 4], data := ⟨.foreign 1, 0⟩ }

/-- A C-contiguous rank-0 array. -/
def example_rank0 : NumpyNdarray :=
  { flags := 0x0501, shape := [], data := ⟨.foreign 1, 0⟩ }

/-! ## Auxiliary facts -/

/-- The cast keeps a value that fits `int`. -/
theorem static_cast_int_of_le (v : Nat) (h : v ≤ INT_MAX) : static_cast_int v = (v : Int) := by
  unfold INT_MAX at h
  have h1 : v % 2 ^ 32 = v := Nat.mod_eq_of_lt (by omega)
  unfold static_cast_int
  rw [h1, if_pos (by omega)]

/-- The asserted cast returns a value that fits `int` unchanged. -/
theorem asserted_static_cast_int_of_le (v : Nat) (h : v ≤ INT_MAX) :
    asserted_static_cast_int v = .ok (v : Int) := by
  unfold asserted_static_cast_int
  rw [if_pos h, static_cast_int_of_le v h]

/-- The conversion to `size_t` keeps a non-negative value in range. -/
theorem int_to_size_t_natCast (k : Nat) (h : k < SIZE_RANGE) : int_to_size_t (k : Int) = k := by
  unfold int_to_size_t
  rw [← Int.natCast_mod, Int.toNat_ofNat, Nat.mod_eq_of_lt h]

/-- The constructor loop, entered at `i` with `m` channels left, assigns the
slots `i, i + 1, ...` and keeps the slots below `i`. -/
theorem fill_spec (getter : Int → Except Failure Ptr) (g : Nat → Ptr) (N : Nat)
    (hg : ∀ k : Nat, k < N → getter (k : Int) = .ok (g k)) :
    ∀ (m i : Nat) (ptrs : List Ptr), i + m = N → ptrs.length = N →
      ∃ out, OwnedChannelData.fill getter (N : Int) i ptrs = .ok out ∧ out.length = N ∧
        ∀ k : Nat, out[k]? = if i ≤ k then (if k < N then some (g k) else none) else ptrs[k]? := by
  intro m
  induction m with
  | zero =>
    intro i ptrs him hlen
    refine ⟨ptrs, ?_, hlen, ?_⟩
    · rw [OwnedChannelData.fill, if_neg (by omega)]
    · intro k
      by_cases hk : i ≤ k
      · rw [if_pos hk, if_neg (by omega)]
        exact List.getElem?_eq_none (by omega)
      · rw [if_neg hk]
  | succ m ih =>
    intro i ptrs him hlen
    have hi : i < N := by omega
    obtain ⟨out, hout, hlen2, hget⟩ := ih (i + 1) (ptrs.set i (g i)) (by omega)
      (by rw [List.length_set]; exact hlen)
    refine ⟨out, ?_, hlen2, ?_⟩
    · rw [OwnedChannelData.fill, if_pos (by omega), hg i hi]
      exact hout
    · intro k
      rw [hget k]
      by_cases h1 : i + 1 ≤ k
      · rw [if_pos h1, if_pos (show i ≤ k by omega)]
      · rw [if_neg h1]
        by_cases h2 : i ≤ k
        · have hk : k = i := by omega
          subst hk
          rw [if_pos h2, if_pos hi, List.getElem?_set_self (by omega)]
        · rw [if_neg h2, List.getElem?_set_ne (by omega)]

/-- The constructor, given a getter that succeeds on `0 .. N - 1`, builds the
table of the getter values in channel order. -/
theorem ctor_spec (own : TypeErasedUniquePtr) (N len : Nat)
    (getter : Int → Except Failure Ptr) (g : Nat → Ptr)
    (hg : ∀ k : Nat, k < N → getter (k : Int) = .ok (g k)) :
    OwnedChannelData.ctor own (N : Int) len getter =
      .ok { num_channels_ := (N : Int), length_ := len, heap_object_ := own,
            ptrs_ := some ((List.range N).map g) } := by
  obtain ⟨out, hout, hlen, hget⟩ :=
    fill_spec getter g N hg N 0 (List.replicate N Ptr.indeterminate) (by omega)
      (by rw [List.length_replicate])
  have hout2 : out = (List.range N).map g := by
    apply List.ext_getElem?
    intro k
    rw [hget k, if_pos (Nat.zero_le k)]
    by_cases hk : k < N
    · rw [if_pos hk, List.getElem?_map, List.getElem?_range hk]
      rfl
    · rw [if_neg hk]
      symm
      apply List.getElem?_eq_none
      rw [List.length_map, List.length_range]
      omega
  unfold OwnedChannelData.ctor
  rw [if_neg (by omega), Int.toNat_ofNat, hout, hout2]
  rfl

/-- The heap after one allocation of `obj`. -/
theorem alloc_eq {α : Type} (heap : Heap α) (obj : HeapObject α) :
    heap.alloc obj = (heap.cells.length, { heap with cells := heap.cells ++ [some obj] }) := rfl

/-- The nested-sequence path on a non-empty input whose outer size fits `int`. -/
theorem create_vector_ok {α : Type} (first : List α) (rest : List (List α)) (heap : Heap α)
    (hmax : (first :: rest).length ≤ INT_MAX) :
    createOwnedChannelData_vector (first :: rest) heap =
      (.ok { num_channels_ := ((first :: rest).length : Int)
             length_ := first.length
             heap_object_ := { ptr := some heap.cells.length, deleter := .channels }
             ptrs_ := some ((List.range (first :: rest).length).map
               (fun (k : Nat) => (⟨.inner heap.cells.length k, 0⟩ : Ptr))) },
       { heap with cells := heap.cells ++ [some (.channels (first :: rest))] }) := by
  unfold createOwnedChannelData_vector
  rw [if_pos (by simp), alloc_eq]
  simp only [asserted_static_cast_int_of_le _ hmax, makeTypeErasedUniquePtr,
    List.getElem?_cons_zero]
  rw [ctor_spec _ (first :: rest).length _ _
    (fun k => (⟨.inner heap.cells.length k, 0⟩ : Ptr))]
  intro k hk
  simp only [Int.toNat_ofNat]
  rw [if_pos ⟨Int.natCast_nonneg k, hk⟩]

/-- The rank-2 array path on a C-contiguous input whose first extent fits `int`. -/
theorem create_ndarray_rank2 {α : Type} (flags : Int) (data : Ptr) (c l : Nat) (heap : Heap α)
    (hcontig : Int.land flags NUMPY_ARRAY_C_CONTIGUOUS ≠ 0) (hmax : c ≤ INT_MAX) :
    createOwnedChannelData_ndarray ⟨flags, [c, l], data⟩ heap =
      (.ok { num_channels_ := (c : Int)
             length_ := l
             heap_object_ := { ptr := some heap.cells.length, deleter := .ndarray }
             ptrs_ := some ((List.range c).map
               (fun (k : Nat) => ndarray_get_ch_ptr ⟨flags, [c, l], data⟩ l (k : Int))) },
       { heap with cells := heap.cells ++ [some (.ndarray ⟨flags, [c, l], data⟩)] }) := by
  have hdims : ndarray_dims ⟨flags, [c, l], data⟩ = .ok ((c : Int), l) := by
    simp [ndarray_dims, NumpyNdarray.ndim, NumpyNdarray.shape_at,
      asserted_static_cast_int_of_le c hmax]
  unfold createOwnedChannelData_ndarray
  simp only [assert_c_contiguous, if_neg hcontig, NumpyNdarray.ndim, List.length_cons,
    List.length_nil, moveOntoHeap, alloc_eq, hdims, makeTypeErasedUniquePtr_owned]
  rw [if_neg (by omega)]
  rw [ctor_spec _ c l _ (fun k => ndarray_get_ch_ptr ⟨flags, [c, l], data⟩ l (k : Int))
    (fun k _ => rfl)]

/-- The rank-1 array path on a C-contiguous input. -/
theorem create_ndarray_rank1 {α : Type} (flags : Int) (data : Ptr) (n : Nat) (heap : Heap α)
    (hcontig : Int.land flags NUMPY_ARRAY_C_CONTIGUOUS ≠ 0) :
    createOwnedChannelData_ndarray ⟨flags, [n], data⟩ heap =
      (.ok { num_channels_ := 1
             length_ := n
             heap_object_ := { ptr := some heap.cells.length, deleter := .ndarray }
             ptrs_ := some [ndarray_get_ch_ptr ⟨flags, [n], data⟩ n 0] },
       { heap with cells := heap.cells ++ [some (.ndarray ⟨flags, [n], data⟩)] }) := by
  have hdims : ndarray_dims ⟨flags, [n], data⟩ = .ok (1, n) := by
    simp [ndarray_dims, NumpyNdarray.ndim, NumpyNdarray.shape_at]
  unfold createOwnedChannelData_ndarray
  simp only [assert_c_contiguous, if_neg hcontig, NumpyNdarray.ndim, List.length_cons,
    List.length_nil, moveOntoHeap, alloc_eq, hdims, makeTypeErasedUniquePtr_owned]
  rw [if_neg (by omega)]
  have h := ctor_spec { ptr := some heap.cells.length, deleter := .ndarray } 1 n
    (fun num_ch => .ok (ndarray_get_ch_ptr ⟨flags, [n], data⟩ n num_ch))
    (fun k => ndarray_get_ch_ptr ⟨flags, [n], data⟩ n (k : Int)) (fun k _ => rfl)
  simp only [Nat.cast_one] at h
  rw [h]
  rfl

/-- The rank-0 array path on a C-contiguous input. -/
theorem create_ndarray_rank0 {α : Type} (flags : Int) (data : Ptr) (heap : Heap α)
    (hcontig : Int.land flags NUMPY_ARRAY_C_CONTIGUOUS ≠ 0) :
    createOwnedChannelData_ndarray ⟨flags, [], data⟩ heap =
      (.ok { num_channels_ := 0
             length_ := 0
             heap_object_ := { ptr := some heap.cells.length, deleter := .ndarray }
             ptrs_ := some [] },
       { heap with cells := heap.cells ++ [some (.ndarray ⟨flags, [], data⟩)] }) := by
  have hdims : ndarray_dims ⟨flags, [], data⟩ = .ok (0, 0) := by
    simp [ndarray_dims, NumpyNdarray.ndim]
  unfold createOwnedChannelData_ndarray
  simp only [assert_c_contiguous, if_neg hcontig, NumpyNdarray.ndim,
    List.length_nil, moveOntoHeap, alloc_eq, hdims, makeTypeErasedUniquePtr_owned]
  rw [if_neg (by omega)]
  have h := ctor_spec { ptr := some heap.cells.length, deleter := .ndarray } 0 0
    (fun num_ch => .ok (ndarray_get_ch_ptr ⟨flags, [], data⟩ 0 num_ch))
    (fun k => ndarray_get_ch_ptr ⟨flags, [], data⟩ 0 (k : Int)) (fun k _ => rfl)
  simp only [Nat.cast_zero] at h
  rw [h]
  rfl

/-- Without wrap-around the getter of the array path returns `base + k * length`. -/
theorem ndarray_get_ch_ptr_eq (arr : NumpyNdarray) (l k : Nat) (hk : k < SIZE_RANGE)
    (hkl : k * l < SIZE_RANGE) :
    ndarray_get_ch_ptr arr l (k : Int) = arr.data.add (k * l) := by
  unfold ndarray_get_ch_ptr
  rw [int_to_size_t_natCast k hk, Nat.mod_eq_of_lt hkl]

/-- Both channel getters read slot `i` of a non-null table. -/
theorem getters_of_table (d : OwnedChannelData) (t : List Ptr) (ht : d.ptrs_ = some t)
    (i : Int) (hi : 0 ≤ i) :
    d.GetWriteChannelPtr i = t[i.toNat]? ∧ d.GetReadChannelPtr i = t[i.toNat]? := by
  unfold OwnedChannelData.GetWriteChannelPtr OwnedChannelData.GetReadChannelPtr
  rw [ht]
  simp only [if_neg (not_lt.mpr hi), and_self]

/-- Slot `k` of the table built from `g` over `0 .. N - 1`. -/
theorem table_slot (g : Nat → Ptr) (N k : Nat) (hk : k < N) :
    ((List.range N).map g)[k]? = some (g k) := by
  rw [List.getElem?_map, List.getElem?_range hk]
  rfl

/-- A channel offset is below the element count. -/
theorem mul_lt_of_lt_of_mul_lt (k c l B : Nat) (hk : k < c) (h : c * l < B) : k * l < B :=
  lt_of_le_of_lt (Nat.mul_le_mul_right l (Nat.le_of_lt hk)) h

/-- Every `int` value fits `size_t`. -/
theorem int_max_lt_size_range : INT_MAX < SIZE_RANGE := by
  unfold INT_MAX SIZE_RANGE
  norm_num

/-- The conversion of a channel index below the channel count to `size_t`. -/
theorem int_to_size_t_index (i : Int) (c : Nat) (hi0 : 0 ≤ i) (hic : i < (c : Int))
    (hmax : c ≤ INT_MAX) : int_to_size_t i = i.toNat := by
  have h := int_to_size_t_natCast i.toNat
    (lt_of_lt_of_le (show i.toNat < c by omega)
      (le_trans hmax (Nat.le_of_lt int_max_lt_size_range)))
  rw [Int.toNat_of_nonneg hi0] at h
  exact h

/-- The channel pointers of the rank-2 array path: slot `i` holds the base
address moved by the `size_t` product `i * length`. -/
theorem rank2_pointers_wrapping {α : Type} (flags : Int) (data : Ptr) (c l : Nat)
    (heap : Heap α) (hcontig : Int.land flags NUMPY_ARRAY_C_CONTIGUOUS ≠ 0)
    (hmax : c ≤ INT_MAX) :
    ∃ d, (createOwnedChannelData_ndarray ⟨flags, [c, l], data⟩ heap).1 = .ok d ∧
      d.num_channels = (c : Int) ∧ d.length = l ∧
      ∀ i : Int, 0 ≤ i → i < (c : Int) →
        d.GetWriteChannelPtr i = some (data.add ((i.toNat * l) % SIZE_RANGE)) ∧
        d.GetReadChannelPtr i = some (data.add ((i.toNat * l) % SIZE_RANGE)) := by
  rw [create_ndarray_rank2 flags data c l heap hcontig hmax]
  refine ⟨_, rfl, rfl, rfl, ?_⟩
  intro i hi0 hic
  have hk : i.toNat < c := by omega
  have hg := getters_of_table
    { num_channels_ := (c : Int), length_ := l,
      heap_object_ := { ptr := some heap.cells.length, deleter := .ndarray },
      ptrs_ := some ((List.range c).map
        (fun (k : Nat) => ndarray_get_ch_ptr ⟨flags, [c, l], data⟩ l (k : Int))) }
    _ rfl i hi0
  rw [hg.1, hg.2, table_slot _ c i.toNat hk, Int.toNat_of_nonneg hi0]
  unfold ndarray_get_ch_ptr
  rw [int_to_size_t_index i c hi0 hic hmax]
  exact ⟨rfl, rfl⟩

/-- The channel pointers of the rank-2 array path when the element count
fits `size_t`: no wrap-around. -/
theorem rank2_pointers {α : Type} (flags : Int) (data : Ptr) (c l : Nat) (heap : Heap α)
    (hcontig : Int.land flags NUMPY_ARRAY_C_CONTIGUOUS ≠ 0) (hmax : c ≤ INT_MAX)
    (hsize : c * l < SIZE_RANGE) :
    ∃ d, (createOwnedChannelData_ndarray ⟨flags, [c, l], data⟩ heap).1 = .ok d ∧
      d.num_channels = (c : Int) ∧ d.length = l ∧
      ∀ i : Int, 0 ≤ i → i < (c : Int) →
        d.GetWriteChannelPtr i = some (data.add (i.toNat * l)) ∧
        d.GetReadChannelPtr i = some (data.add (i.toNat * l)) := by
  obtain ⟨d, hd, hn, hl, hp⟩ := rank2_pointers_wrapping flags data c l heap hcontig hmax
  refine ⟨d, hd, hn, hl, ?_⟩
  intro i hi0 hic
  have h := hp i hi0 hic
  rw [Nat.mod_eq_of_lt (mul_lt_of_lt_of_mul_lt _ c l _ (show i.toNat < c by omega) hsize)] at h
  exact h

/-! ## Claims about the array path -/

/-- C1: for a C-contiguous descriptor of rank 1 the construction succeeds with
one channel of length `shape[0]` whose pointer is the base address; for a
C-contiguous descriptor of rank 2 whose first extent fits `int` it succeeds
with `shape[0]` channels of length `shape[1]`. Both getters return, for every
channel index `i`, the base address moved by the `size_t` product
`i * length`, which is `base + i * length` whenever the element count of the
array fits `size_t`, as it does for every array that exists in memory. -/
theorem createOwnedChannelData_ndarray_aliasing {α : Type} (arr : NumpyNdarray)
    (heap : Heap α) (hcontig : Int.land arr.flags NUMPY_ARRAY_C_CONTIGUOUS ≠ 0) :
    (∀ n : Nat, arr.shape = [n] →
      ∃ d, (createOwnedChannelData_ndarray arr heap).1 = .ok d ∧
        d.num_channels = 1 ∧ d.length = n ∧
        d.GetWriteChannelPtr 0 = some arr.data ∧ d.GetReadChannelPtr 0 = some arr.data ∧
        ∀ i : Int, 0 ≤ i → i < d.num_channels →
          d.GetWriteChannelPtr i = some (arr.data.add (i.toNat * d.length)) ∧
          d.GetReadChannelPtr i = some (arr.data.add (i.toNat * d.length))) ∧
    (∀ c l : Nat, arr.shape = [c, l] → c ≤ INT_MAX →
      ∃ d, (createOwnedChannelData_ndarray arr heap).1 = .ok d ∧
        d.num_channels = (c : Int) ∧ d.length = l ∧
        ∀ i : Int, 0 ≤ i → i < d.num_channels →
          (d.GetWriteChannelPtr i = some (arr.data.add ((i.toNat * d.length) % SIZE_RANGE)) ∧
           d.GetReadChannelPtr i = some (arr.data.add ((i.toNat * d.length) % SIZE_RANGE))) ∧
          (arr.size < SIZE_RANGE →
            d.GetWriteChannelPtr i = some (arr.data.add (i.toNat * d.length)) ∧
            d.GetReadChannelPtr i = some (arr.data.add (i.toNat * d.length)))) := by
  obtain ⟨flags, shape, data⟩ := arr
  simp only at hcontig
  constructor
  · intro n hshape
    simp only at hshape
    subst hshape
    rw [create_ndarray_rank1 flags data n heap hcontig]
    have h0 : ndarray_get_ch_ptr ⟨flags, [n], data⟩ n 0 = data := by
      have h := ndarray_get_ch_ptr_eq ⟨flags, [n], data⟩ n 0 (by unfold SIZE_RANGE; norm_num)
        (by unfold SIZE_RANGE; norm_num)
      simpa [Ptr.add] using h
    refine ⟨_, rfl, rfl, rfl, ?_, ?_, ?_⟩
    · simp [OwnedChannelData.GetWriteChannelPtr, h0]
    · simp [OwnedChannelData.GetReadChannelPtr, h0]
    · intro i hi0 hi1
      have hi : i = 0 := by
        simp only [OwnedChannelData.num_channels] at hi1
        omega
      subst hi
      simp [OwnedChannelData.GetWriteChannelPtr, OwnedChannelData.GetReadChannelPtr, h0,
        Ptr.add]
  · intro c l hshape hmax
    simp only at hshape
    subst hshape
    obtain ⟨d, hd, hn, hl, hp⟩ := rank2_pointers_wrapping flags data c l heap hcontig hmax
    refine ⟨d, hd, hn, hl, ?_⟩
    intro i hi0 hi1
    rw [hn] at hi1
    rw [hl]
    refine ⟨hp i hi0 hi1, ?_⟩
    intro hsize
    have hsize2 : c * l < SIZE_RANGE := by
      simpa [NumpyNdarray.size] using hsize
    have h := hp i hi0 hi1
    rw [Nat.mod_eq_of_lt
      (mul_lt_of_lt_of_mul_lt _ c l _ (show i.toNat < c by omega) hsize2)] at h
    exact h

/-- C3: a descriptor whose C-contiguity bit is clear is rejected with the
contiguity violation whatever its rank and shape; the heap is left as it was
and no OwnedChannelData is produced. -/
theorem createOwnedChannelData_ndarray_not_contiguous {α : Type} (arr : NumpyNdarray)
    (heap : Heap α) (hflag : Int.land arr.flags NUMPY_ARRAY_C_CONTIGUOUS = 0) :
    createOwnedChannelData_ndarray arr heap =
      (.error (.domain_error "ndarray argument is not C contiguous"), heap) := by
  unfold createOwnedChannelData_ndarray assert_c_contiguous
  rw [if_pos hflag]

/-- The rank-2 array path when the first extent does not fit `int`: the
assertion of the narrowing fails after the descriptor was moved onto the heap. -/
theorem create_ndarray_rank2_overflow {α : Type} (flags : Int) (data : Ptr) (c l : Nat)
    (heap : Heap α) (hcontig : Int.land flags NUMPY_ARRAY_C_CONTIGUOUS ≠ 0)
    (hbig : INT_MAX < c) :
    createOwnedChannelData_ndarray ⟨flags, [c, l], data⟩ heap =
      (.error (.assertion_failed "value <= std::numeric_limits<int>::max()"),
       { heap with cells := heap.cells ++ [some (.ndarray ⟨flags, [c, l], data⟩)] }) := by
  have hdims : ndarray_dims ⟨flags, [c, l], data⟩ =
      .error (.assertion_failed "value <= std::numeric_limits<int>::max()") := by
    simp [ndarray_dims, NumpyNdarray.ndim, NumpyNdarray.shape_at, asserted_static_cast_int,
      if_neg (not_le.mpr hbig)]
  unfold createOwnedChannelData_ndarray
  simp only [assert_c_contiguous, if_neg hcontig, NumpyNdarray.ndim, List.length_cons,
    List.length_nil, moveOntoHeap, alloc_eq, hdims]
  rw [if_neg (by omega)]

/-- The array path on a C-contiguous descriptor of rank above 2. -/
theorem create_ndarray_rank_gt2 {α : Type} (arr : NumpyNdarray) (heap : Heap α)
    (hcontig : Int.land arr.flags NUMPY_ARRAY_C_CONTIGUOUS ≠ 0) (hrank : arr.ndim > 2) :
    createOwnedChannelData_ndarray arr heap =
      (.error (.domain_error "At most two-dimensional arrays are supported."), heap) := by
  unfold createOwnedChannelData_ndarray
  simp only [assert_c_contiguous, if_neg hcontig]
  rw [if_pos hrank]

/-- C4: on a C-contiguous descriptor the construction fails with the
unsupported-rank error exactly when the rank exceeds 2; in that case the heap
is left as it was (the descriptor has not been moved onto it) and no
OwnedChannelData is produced; for rank at most 2, with a first extent that
fits `int` at rank 2, the construction returns a value. -/
theorem createOwnedChannelData_ndarray_rank_check {α : Type} (arr : NumpyNdarray)
    (heap : Heap α) (hcontig : Int.land arr.flags NUMPY_ARRAY_C_CONTIGUOUS ≠ 0) :
    ((createOwnedChannelData_ndarray arr heap).1 =
        .error (.domain_error "At most two-dimensional arrays are supported.") ↔
      arr.ndim > 2) ∧
    (arr.ndim > 2 → createOwnedChannelData_ndarray arr heap =
      (.error (.domain_error "At most two-dimensional arrays are supported."), heap)) ∧
    (arr.ndim ≤ 2 → (∀ c l : Nat, arr.shape = [c, l] → c ≤ INT_MAX) →
      ∃ d, (createOwnedChannelData_ndarray arr heap).1 = .ok d) := by
  refine ⟨⟨?_, ?_⟩, ?_, ?_⟩
  · intro herr
    by_contra hle
    obtain ⟨flags, shape, data⟩ := arr
    simp only at hcontig
    match shape, hle, herr with
    | [], _, herr =>
      rw [create_ndarray_rank0 flags data heap hcontig] at herr
      cases herr
    | [n], _, herr =>
      rw [create_ndarray_rank1 flags data n heap hcontig] at herr
      cases herr
    | [c, l], _, herr =>
      by_cases hmax : c ≤ INT_MAX
      · rw [create_ndarray_rank2 flags data c l heap hcontig hmax] at herr
        cases herr
      · rw [create_ndarray_rank2_overflow flags data c l heap hcontig (not_le.mp hmax)] at herr
        cases herr
    | _ :: _ :: _ :: _, hle, _ =>
      exact hle (by simp [NumpyNdarray.ndim])
  · intro hrank
    rw [create_ndarray_rank_gt2 arr heap hcontig hrank]
  · exact create_ndarray_rank_gt2 arr heap hcontig
  · intro hrank hfit
    obtain ⟨flags, shape, data⟩ := arr
    simp only at hcontig
    match shape, hrank, hfit with
    | [], _, _ =>
      rw [create_ndarray_rank0 flags data heap hcontig]
      exact ⟨_, rfl⟩
    | [n], _, _ =>
      rw [create_ndarray_rank1 flags data n heap hcontig]
      exact ⟨_, rfl⟩
    | [c, l], _, hfit =>
      rw [create_ndarray_rank2 flags data c l heap hcontig (hfit c l rfl)]
      exact ⟨_, rfl⟩
    | _ :: _ :: _ :: _, hrank, _ =>
      simp [NumpyNdarray.ndim] at hrank

/-- C5: for the value built from a C-contiguous rank-2 descriptor of shape
`(C, L)` (first extent within `int`, element count within `size_t`), every
channel pointer lies in the block of the base address with its range of `L`
elements inside `[base, base + C * L)`, and the ranges of two distinct
channels share no element offset. -/
theorem createOwnedChannelData_ndarray_ranges {α : Type} (arr : NumpyNdarray)
    (heap : Heap α) (c l : Nat)
    (hcontig : Int.land arr.flags NUMPY_ARRAY_C_CONTIGUOUS ≠ 0)
    (hshape : arr.shape = [c, l]) (hmax : c ≤ INT_MAX) (hsize : arr.size < SIZE_RANGE) :
    ∃ d, (createOwnedChannelData_ndarray arr heap).1 = .ok d ∧
      (∀ i : Int, 0 ≤ i → i < d.num_channels →
        ∃ p, d.GetReadChannelPtr i = some p ∧ d.GetWriteChannelPtr i = some p ∧
          p.block = arr.data.block ∧ arr.data.off ≤ p.off ∧
          p.off + d.length ≤ arr.data.off + c * l) ∧
      (∀ i j : Int, 0 ≤ i → i < d.num_channels → 0 ≤ j → j < d.num_channels → i ≠ j →
        ∀ p q : Ptr, d.GetReadChannelPtr i = some p → d.GetReadChannelPtr j = some q →
          ∀ e : Nat, ¬ (p.off ≤ e ∧ e < p.off + d.length ∧ q.off ≤ e ∧ e < q.off + d.length)) := by
  obtain ⟨flags, shape, data⟩ := arr
  simp only at hcontig hshape
  subst hshape
  have hsize2 : c * l < SIZE_RANGE := by
    simpa [NumpyNdarray.size] using hsize
  obtain ⟨d, hd, hn, hl, hp⟩ := rank2_pointers flags data c l heap hcontig hmax hsize2
  have hrow : ∀ a b : Nat, a < b → a * l + l ≤ b * l := by
    intro a b hab
    have h := Nat.mul_le_mul_right l (Nat.succ_le_of_lt hab)
    rw [Nat.succ_mul] at h
    exact h
  refine ⟨d, hd, ?_, ?_⟩
  · intro i hi0 hi1
    rw [hn] at hi1
    refine ⟨data.add (i.toNat * l), (hp i hi0 hi1).2, (hp i hi0 hi1).1, rfl, ?_, ?_⟩
    · simp only [Ptr.add]
      omega
    · have h := hrow i.toNat c (by omega)
      simp only [Ptr.add, hl]
      omega
  · intro i j hi0 hi1 hj0 hj1 hij p q hp1 hq1 e
    rw [hn] at hi1 hj1
    rw [(hp i hi0 hi1).2] at hp1
    rw [(hp j hj0 hj1).2] at hq1
    cases hp1
    cases hq1
    simp only [Ptr.add, hl]
    have hne : i.toNat ≠ j.toNat := by omega
    rcases Nat.lt_or_gt_of_ne hne with hlt | hgt
    · have h := hrow i.toNat j.toNat hlt
      omega
    · have h := hrow j.toNat i.toNat hgt
      omega

/-- C10: a C-contiguous rank-0 descriptor is accepted: the result has no
channels, length 0 and an empty pointer table, and it owns the descriptor, which
now lives on the heap; with 0 channels the constructor returns the same value
for every pointer getter, so the getter is not consulted. -/
theorem createOwnedChannelData_ndarray_rank0 {α : Type} (arr : NumpyNdarray)
    (heap : Heap α) (hcontig : Int.land arr.flags NUMPY_ARRAY_C_CONTIGUOUS ≠ 0)
    (hrank : arr.ndim = 0) :
    ∃ d, (createOwnedChannelData_ndarray arr heap).1 = .ok d ∧
      d.num_channels = 0 ∧ d.length = 0 ∧
      d.GetWritePtrs = some [] ∧ d.GetReadPtrs = some [] ∧
      d.toBool = true ∧
      d.heap_object_.ptr = some heap.cells.length ∧
      (createOwnedChannelData_ndarray arr heap).2.cells = heap.cells ++ [some (.ndarray arr)] ∧
      ∀ (own : TypeErasedUniquePtr) (getter : Int → Except Failure Ptr),
        OwnedChannelData.ctor own 0 0 getter =
          .ok { num_channels_ := 0, length_ := 0, heap_object_ := own, ptrs_ := some [] } := by
  obtain ⟨flags, shape, data⟩ := arr
  simp only at hcontig
  have hshape : shape = [] := List.length_eq_zero.mp hrank
  subst hshape
  rw [create_ndarray_rank0 flags data heap hcontig]
  refine ⟨_, rfl, rfl, rfl, rfl, rfl, rfl, rfl, rfl, ?_⟩
  intro own getter
  unfold OwnedChannelData.ctor
  rw [if_neg (by omega), OwnedChannelData.fill, if_neg (by omega)]
  rfl

/-! ## Claims about the nested-sequence path -/

/-- Reading from the nested vector allocated last. -/
theorem load_last_alloc {α : Type} (heap : Heap α) (ch : List (List α)) (i off : Nat) :
    Heap.load { heap with cells := heap.cells ++ [some (.channels ch)] }
        ⟨.inner heap.cells.length i, off⟩ =
      (ch[i]?).bind (fun row => row[off]?) := by
  unfold Heap.load
  simp only [List.getElem?_concat_length]
  cases ch[i]? <;> rfl

/-- Writing into the nested vector allocated last. -/
theorem store_last_alloc {α : Type} (heap : Heap α) (ch : List (List α)) (i off : Nat)
    (row : List α) (x : α) (hrow : ch[i]? = some row) (hoff : off < row.length) :
    Heap.store { heap with cells := heap.cells ++ [some (.channels ch)] }
        ⟨.inner heap.cells.length i, off⟩ x =
      some { heap with cells := heap.cells ++ [some (.channels (ch.set i (row.set off x)))] } := by
  unfold Heap.store
  simp only [List.getElem?_concat_length, hrow, if_pos hoff, List.set_append_right _ _ (le_refl _),
    Nat.sub_self, List.set_cons_zero]

/-- The channel pointers of the nested-sequence path. -/
theorem vector_pointers {α : Type} (first : List α) (rest : List (List α)) (heap : Heap α)
    (hmax : (first :: rest).length ≤ INT_MAX) :
    ∃ d, createOwnedChannelData_vector (first :: rest) heap =
        (.ok d, { heap with cells := heap.cells ++ [some (.channels (first :: rest))] }) ∧
      d.num_channels = ((first :: rest).length : Int) ∧ d.length = first.length ∧
      ∀ i : Nat, i < (first :: rest).length →
        d.GetWriteChannelPtr (i : Int) = some ⟨.inner heap.cells.length i, 0⟩ ∧
        d.GetReadChannelPtr (i : Int) = some ⟨.inner heap.cells.length i, 0⟩ := by
  rw [create_vector_ok first rest heap hmax]
  refine ⟨_, rfl, rfl, rfl, ?_⟩
  intro i hi
  have hg := getters_of_table
    { num_channels_ := ((first :: rest).length : Int), length_ := first.length,
      heap_object_ := { ptr := some heap.cells.length, deleter := .channels },
      ptrs_ := some ((List.range (first :: rest).length).map
        (fun (k : Nat) => (⟨.inner heap.cells.length k, 0⟩ : Ptr))) }
    _ rfl (i : Int) (Int.natCast_nonneg i)
  rw [hg.1, hg.2, Int.toNat_ofNat, table_slot _ _ i hi]
  exact ⟨rfl, rfl⟩

/-- C2: for a non-empty nested sequence whose outer size fits `int` (inner
lengths arbitrary), the construction returns a value with as many channels as
inner sequences and the length of the first inner sequence; both getters of
channel `i` return a pointer through which offset `j` reads the original
element `j` of inner sequence `i`. -/
theorem createOwnedChannelData_vector_reads {α : Type} (first : List α)
    (rest : List (List α)) (heap : Heap α) (hmax : (first :: rest).length ≤ INT_MAX) :
    ∃ d, (createOwnedChannelData_vector (first :: rest) heap).1 = .ok d ∧
      d.num_channels = ((first :: rest).length : Int) ∧ d.length = first.length ∧
      ∀ (i : Nat) (hi : i < (first :: rest).length),
        ∃ p, d.GetReadChannelPtr (i : Int) = some p ∧ d.GetWriteChannelPtr (i : Int) = some p ∧
          ∀ (j : Nat) (hj : j < ((first :: rest)[i]).length),
            (createOwnedChannelData_vector (first :: rest) heap).2.load (p.add j) =
              some (((first :: rest)[i])[j]) := by
  obtain ⟨d, hd, hn, hl, hp⟩ := vector_pointers first rest heap hmax
  rw [hd]
  refine ⟨d, rfl, hn, hl, ?_⟩
  intro i hi
  refine ⟨_, (hp i hi).2, (hp i hi).1, ?_⟩
  intro j hj
  simp only [Ptr.add, Nat.zero_add]
  rw [load_last_alloc, List.getElem?_eq_getElem hi, Option.some_bind,
    List.getElem?_eq_getElem hj]

/-- C6: for the value built from a non-empty nested sequence of equal-length
channels, a store of `v` through the write pointer of channel `i` at offset
`j` succeeds, and afterwards reading any channel `k` at any offset `m` through
its read pointer gives `v` at `(i, j)` and the original element everywhere
else; the value itself, and so its channel count and length, is not touched. -/
theorem createOwnedChannelData_vector_store {α : Type} (first : List α)
    (rest : List (List α)) (heap : Heap α) (i j : Nat) (v : α)
    (hmax : (first :: rest).length ≤ INT_MAX)
    (hequal : ∀ row ∈ first :: rest, row.length = first.length)
    (hi : i < (first :: rest).length) (hj : j < first.length) :
    ∃ d p heap2, (createOwnedChannelData_vector (first :: rest) heap).1 = .ok d ∧
      d.num_channels = ((first :: rest).length : Int) ∧ d.length = first.length ∧
      d.GetWriteChannelPtr (i : Int) = some p ∧
      (createOwnedChannelData_vector (first :: rest) heap).2.store (p.add j) v = some heap2 ∧
      ∀ (k : Nat) (hk : k < (first :: rest).length),
        ∃ q, d.GetReadChannelPtr (k : Int) = some q ∧
          ∀ (m : Nat) (hm : m < ((first :: rest)[k]).length),
            heap2.load (q.add m) =
              some (if k = i ∧ m = j then v else ((first :: rest)[k])[m]) := by
  obtain ⟨d, hd, hn, hl, hp⟩ := vector_pointers first rest heap hmax
  rw [hd]
  have hrow : (first :: rest)[i]? = some ((first :: rest)[i]) := List.getElem?_eq_getElem hi
  have hjrow : j < ((first :: rest)[i]).length := by
    rw [hequal _ (List.getElem_mem hi)]
    exact hj
  refine ⟨d, ⟨.inner heap.cells.length i, 0⟩,
    { heap with cells := heap.cells ++
        [some (.channels ((first :: rest).set i (((first :: rest)[i]).set j v)))] },
    rfl, hn, hl, (hp i hi).1, ?_, ?_⟩
  · simp only [Ptr.add, Nat.zero_add]
    exact store_last_alloc heap (first :: rest) i j _ v hrow hjrow
  · intro k hk
    refine ⟨_, (hp k hk).2, ?_⟩
    intro m hm
    simp only [Ptr.add, Nat.zero_add]
    rw [load_last_alloc]
    by_cases hki : k = i
    · subst hki
      rw [List.getElem?_set_self hk, Option.some_bind]
      by_cases hmj : m = j
      · subst hmj
        rw [List.getElem?_set_self hm, if_pos ⟨rfl, rfl⟩]
      · rw [List.getElem?_set_ne (Ne.symm hmj), if_neg (fun h => hmj h.2),
          List.getElem?_eq_getElem hm]
    · rw [List.getElem?_set_ne (Ne.symm hki), List.getElem?_eq_getElem hk, Option.some_bind,
        if_neg (fun h => hki h.1), List.getElem?_eq_getElem hm]

/-- The nested-sequence path when the outer size does not fit `int`: the
assertion of the narrowing fails. -/
theorem create_vector_overflow {α : Type} (channels : List (List α)) (heap : Heap α)
    (hbig : INT_MAX < channels.length) :
    (createOwnedChannelData_vector channels heap).1 =
      .error (.assertion_failed "value <= std::numeric_limits<int>::max()") := by
  unfold createOwnedChannelData_vector
  rw [if_pos (by omega), alloc_eq]
  simp only [asserted_static_cast_int, if_neg (not_le.mpr hbig)]

/-- C9: the narrowing returns its argument unchanged (and so non-negative)
when the argument is at most `INT_MAX` and fails its assertion otherwise, never
a wrapped value; hence a value returned by either construction path carries
the true channel count (the outer size, the first extent at rank 2), and a
count above `INT_MAX` makes either path fail the assertion. -/
theorem asserted_static_cast_int_exact {α : Type} (v : Nat) (channels : List (List α))
    (arr : NumpyNdarray) (heap : Heap α) :
    (asserted_static_cast_int v =
      if v ≤ INT_MAX then .ok (v : Int)
      else .error (.assertion_failed "value <= std::numeric_limits<int>::max()")) ∧
    (∀ r : Int, asserted_static_cast_int v = .ok r → r = (v : Int) ∧ 0 ≤ r ∧ v ≤ INT_MAX) ∧
    (∀ d, (createOwnedChannelData_vector channels heap).1 = .ok d →
      d.num_channels = (channels.length : Int)) ∧
    (∀ d c l, arr.shape = [c, l] → (createOwnedChannelData_ndarray arr heap).1 = .ok d →
      d.num_channels = (c : Int)) ∧
    (INT_MAX < channels.length → (createOwnedChannelData_vector channels heap).1 =
      .error (.assertion_failed "value <= std::numeric_limits<int>::max()")) ∧
    (∀ c l, arr.shape = [c, l] → Int.land arr.flags NUMPY_ARRAY_C_CONTIGUOUS ≠ 0 →
      INT_MAX < c → (createOwnedChannelData_ndarray arr heap).1 =
        .error (.assertion_failed "value <= std::numeric_limits<int>::max()")) := by
  have hcast : asserted_static_cast_int v =
      if v ≤ INT_MAX then .ok (v : Int)
      else .error (.assertion_failed "value <= std::numeric_limits<int>::max()") := by
    by_cases h : v ≤ INT_MAX
    · rw [if_pos h, asserted_static_cast_int_of_le v h]
    · rw [if_neg h, asserted_static_cast_int, if_neg h]
  refine ⟨hcast, ?_, ?_, ?_, create_vector_overflow channels heap, ?_⟩
  · intro r hr
    rw [hcast] at hr
    by_cases h : v ≤ INT_MAX
    · rw [if_pos h] at hr
      cases hr
      exact ⟨rfl, Int.natCast_nonneg v, h⟩
    · rw [if_neg h] at hr
      cases hr
  · intro d hd
    match channels, hd with
    | [], hd =>
      simp [createOwnedChannelData_vector] at hd
    | first :: rest, hd =>
      by_cases hmax : (first :: rest).length ≤ INT_MAX
      · rw [create_vector_ok first rest heap hmax] at hd
        cases hd
        rfl
      · rw [create_vector_overflow (first :: rest) heap (not_le.mp hmax)] at hd
        cases hd
  · intro d c l hshape hd
    obtain ⟨flags, shape, data⟩ := arr
    simp only at hshape
    subst hshape
    by_cases hcontig : Int.land flags NUMPY_ARRAY_C_CONTIGUOUS = 0
    · rw [createOwnedChannelData_ndarray, assert_c_contiguous, if_pos hcontig] at hd
      cases hd
    · by_cases hmax : c ≤ INT_MAX
      · rw [create_ndarray_rank2 flags data c l heap hcontig hmax] at hd
        cases hd
        rfl
      · rw [create_ndarray_rank2_overflow flags data c l heap hcontig (not_le.mp hmax)] at hd
        cases hd
  · intro c l hshape hcontig hbig
    obtain ⟨flags, shape, data⟩ := arr
    simp only at hshape hcontig
    subst hshape
    rw [create_ndarray_rank2_overflow flags data c l heap hcontig hbig]

/-! ## Claims about moving and releasing -/

/-- C7: after the member-wise move the source holds no backing object (its
handle is null and its boolean conversion is false), and the destination
reports a backing object exactly when the source did, with the same channel
count, the same length and the same pointer for every channel index. -/
theorem OwnedChannelData_move_transfers (d : OwnedChannelData) :
    d.move.2.toBool = false ∧ d.move.2.heap_object_.ptr = none ∧
    d.move.1.toBool = d.toBool ∧
    d.move.1.num_channels = d.num_channels ∧ d.move.1.length = d.length ∧
    (∀ i : Int, d.move.1.GetReadChannelPtr i = d.GetReadChannelPtr i) ∧
    (∀ i : Int, d.move.1.GetWriteChannelPtr i = d.GetWriteChannelPtr i) :=
  ⟨rfl, rfl, rfl, rfl, rfl, fun _ => rfl, fun _ => rfl⟩

/-- Releasing an empty handle any number of times changes nothing. -/
theorem release_times_empty {α : Type} (T : ObjType) (n : Nat) (heap : Heap α) :
    release_times n { ptr := none, deleter := T } heap = ({ ptr := none, deleter := T }, heap) := by
  induction n with
  | zero => rfl
  | succ n ih =>
    rw [release_times]
    exact ih

/-- C8: the handle made from an object at `addr` of type `T` passes `addr` to
the deleter of `T` on its first release and becomes empty; releasing an empty
or moved-from handle changes nothing; so however often the handle is released,
the deleter log grows by the single entry `(T, addr)`, and the cell of an object
that was moved onto the heap is freed. Both overloads make the same handle, and
destroying the owning OwnedChannelData is one release. -/
theorem makeTypeErasedUniquePtr_deletes_once {α : Type} (T : ObjType) (addr : Addr)
    (heap : Heap α) (n : Nat) (obj : HeapObject α) :
    (makeTypeErasedUniquePtr T (some addr)).reset heap =
      ({ ptr := none, deleter := T }, heap.delete_as T addr) ∧
    (heap.delete_as T addr).deleted = heap.deleted ++ [(T, addr)] ∧
    ({ ptr := none, deleter := T } : TypeErasedUniquePtr).reset heap =
      ({ ptr := none, deleter := T }, heap) ∧
    (makeTypeErasedUniquePtr T (some addr)).move =
      (makeTypeErasedUniquePtr T (some addr), { ptr := none, deleter := T }) ∧
    release_times (n + 1) (makeTypeErasedUniquePtr T (some addr)) heap =
      ({ ptr := none, deleter := T }, heap.delete_as T addr) ∧
    makeTypeErasedUniquePtr_owned T (some addr) = makeTypeErasedUniquePtr T (some addr) ∧
    ((makeTypeErasedUniquePtr_owned T (some (moveOntoHeap obj heap).1)).reset
        (moveOntoHeap obj heap).2).2 =
      { cells := heap.cells ++ [none], deleted := heap.deleted ++ [(T, heap.cells.length)] } ∧
    (∀ d : OwnedChannelData, d.heap_object_ = makeTypeErasedUniquePtr T (some addr) →
      d.destroy heap = heap.delete_as T addr ∧
      d.move.2.destroy (d.move.1.destroy heap) = heap.delete_as T addr) := by
  refine ⟨rfl, rfl, rfl, rfl, ?_, rfl, ?_, ?_⟩
  · rw [release_times]
    exact release_times_empty T n _
  · simp [makeTypeErasedUniquePtr_owned, moveOntoHeap, Heap.alloc, TypeErasedUniquePtr.reset,
      Heap.delete_as]
  · intro d hd
    constructor
    · unfold OwnedChannelData.destroy
      rw [hd]
      rfl
    · unfold OwnedChannelData.destroy OwnedChannelData.move
      simp only [hd]
      rfl

/-! ## Instances at concrete inputs -/

/-- C1 at the `(2, 4)` array based at offset 16: two channels of length 4, at
offsets 16 and 20 of the array buffer. -/
theorem createOwnedChannelData_ndarray_aliasing_witness :
    ∃ d, (createOwnedChannelData_ndarray example_rank2 example_heap).1 = .ok d ∧
      d.num_channels = 2 ∧ d.length = 4 ∧
      d.GetWriteChannelPtr 0 = some ⟨.foreign 1, 16⟩ ∧
      d.GetReadChannelPtr 1 = some ⟨.foreign 1, 20⟩ := by
  obtain ⟨d, hd, hn, hl, hp⟩ :=
    (createOwnedChannelData_ndarray_aliasing example_rank2 example_heap (by decide)).2 2 4 rfl
      (by decide)
  refine ⟨d, hd, hn, hl, ?_, ?_⟩
  · rw [((hp 0 (by decide) (by rw [hn]; decide)).2 (by decide)).1, hl]
    rfl
  · rw [((hp 1 (by decide) (by rw [hn]; decide)).2 (by decide)).2, hl]
    rfl

/-- C3 at a rank-3 array that is not C-contiguous: the contiguity violation is
reported, not the rank. -/
theorem createOwnedChannelData_ndarray_not_contiguous_witness :
    example_strided.ndim = 3 ∧
    createOwnedChannelData_ndarray example_strided example_heap =
      (.error (.domain_error "ndarray argument is not C contiguous"), example_heap) :=
  ⟨rfl, createOwnedChannelData_ndarray_not_contiguous example_strided example_heap (by decide)⟩

/-- C4 at a C-contiguous rank-3 array (rejected, heap unchanged) and at the
`(2, 4)` array (accepted). -/
theorem createOwnedChannelData_ndarray_rank_check_witness :
    createOwnedChannelData_ndarray example_rank3 example_heap =
      (.error (.domain_error "At most two-dimensional arrays are supported."), example_heap) ∧
    ∃ d, (createOwnedChannelData_ndarray example_rank2 example_heap).1 = .ok d :=
  ⟨(createOwnedChannelData_ndarray_rank_check example_rank3 example_heap (by decide)).2.1
      (by decide),
   (createOwnedChannelData_ndarray_rank_check example_rank2 example_heap (by decide)).2.2
      (by decide) (by
        intro c l h
        cases h
        decide)⟩

/-- C5 at the `(2, 4)` array. -/
theorem createOwnedChannelData_ndarray_ranges_witness :
    ∃ d, (createOwnedChannelData_ndarray example_rank2 example_heap).1 = .ok d ∧
      (∀ i : Int, 0 ≤ i → i < d.num_channels →
        ∃ p, d.GetReadChannelPtr i = some p ∧ d.GetWriteChannelPtr i = some p ∧
          p.block = example_rank2.data.block ∧ example_rank2.data.off ≤ p.off ∧
          p.off + d.length ≤ example_rank2.data.off + 2 * 4) ∧
      (∀ i j : Int, 0 ≤ i → i < d.num_channels → 0 ≤ j → j < d.num_channels → i ≠ j →
        ∀ p q : Ptr, d.GetReadChannelPtr i = some p → d.GetReadChannelPtr j = some q →
          ∀ e : Nat, ¬ (p.off ≤ e ∧ e < p.off + d.length ∧ q.off ≤ e ∧ e < q.off + d.length)) :=
  createOwnedChannelData_ndarray_ranges example_rank2 example_heap 2 4 (by decide) rfl
    (by decide) (by decide)

/-- C10 at a C-contiguous rank-0 array. -/
theorem createOwnedChannelData_ndarray_rank0_witness :
    ∃ d, (createOwnedChannelData_ndarray example_rank0 example_heap).1 = .ok d ∧
      d.num_channels = 0 ∧ d.length = 0 ∧ d.GetReadPtrs = some [] ∧ d.toBool = true := by
  obtain ⟨d, hd, hn, hl, _, hr, hb, _⟩ :=
    createOwnedChannelData_ndarray_rank0 example_rank0 example_heap (by decide) rfl
  exact ⟨d, hd, hn, hl, hr, hb⟩

/-- C2 at `[[1, 2, 3], [4, 5, 6]]`: two channels of length 3 reading `1, 2, 3`
and `4, 5, 6`. -/
theorem createOwnedChannelData_vector_reads_witness :
    ∃ d p0 p1, (createOwnedChannelData_vector [[1, 2, 3], [4, 5, 6]] example_heap).1 = .ok d ∧
      d.num_channels = 2 ∧ d.length = 3 ∧
      d.GetReadChannelPtr 0 = some p0 ∧ d.GetReadChannelPtr 1 = some p1 ∧
      (createOwnedChannelData_vector [[1, 2, 3], [4, 5, 6]] example_heap).2.load (p0.add 0)
        = some 1 ∧
      (createOwnedChannelData_vector [[1, 2, 3], [4, 5, 6]] example_heap).2.load (p0.add 1)
        = some 2 ∧
      (createOwnedChannelData_vector [[1, 2, 3], [4, 5, 6]] example_heap).2.load (p0.add 2)
        = some 3 ∧
      (createOwnedChannelData_vector [[1, 2, 3], [4, 5, 6]] example_heap).2.load (p1.add 0)
        = some 4 ∧
      (createOwnedChannelData_vector [[1, 2, 3], [4, 5, 6]] example_heap).2.load (p1.add 1)
        = some 5 ∧
      (createOwnedChannelData_vector [[1, 2, 3], [4, 5, 6]] example_heap).2.load (p1.add 2)
        = some 6 := by
  obtain ⟨d, hd, hn, hl, hp⟩ :=
    createOwnedChannelData_vector_reads [1, 2, 3] [[4, 5, 6]] example_heap (by decide)
  obtain ⟨p0, hr0, _, h0⟩ := hp 0 (by decide)
  obtain ⟨p1, hr1, _, h1⟩ := hp 1 (by decide)
  exact ⟨d, p0, p1, hd, hn, hl, hr0, hr1, h0 0 (by decide), h0 1 (by decide),
    h0 2 (by decide), h1 0 (by decide), h1 1 (by decide), h1 2 (by decide)⟩

/-- C6 at `[[1, 2, 3], [4, 5, 6]]`: after writing 9 to channel 0 at index 1,
channel 0 reads `1, 9, 3` and channel 1 reads `4, 5, 6`. -/
theorem createOwnedChannelData_vector_store_witness :
    ∃ d p heap2 q0 q1,
      (createOwnedChannelData_vector [[1, 2, 3], [4, 5, 6]] example_heap).1 = .ok d ∧
      d.num_channels = 2 ∧ d.length = 3 ∧
      d.GetWriteChannelPtr 0 = some p ∧
      (createOwnedChannelData_vector [[1, 2, 3], [4, 5, 6]] example_heap).2.store (p.add 1) 9
        = some heap2 ∧
      d.GetReadChannelPtr 0 = some q0 ∧ d.GetReadChannelPtr 1 = some q1 ∧
      heap2.load (q0.add 0) = some 1 ∧ heap2.load (q0.add 1) = some 9 ∧
      heap2.load (q0.add 2) = some 3 ∧
      heap2.load (q1.add 0) = some 4 ∧ heap2.load (q1.add 1) = some 5 ∧
      heap2.load (q1.add 2) = some 6 := by
  obtain ⟨d, p, heap2, hd, hn, hl, hw, hs, hall⟩ :=
    createOwnedChannelData_vector_store [1, 2, 3] [[4, 5, 6]] example_heap 0 1 9 (by decide)
      (by decide) (by decide) (by decide)
  obtain ⟨q0, hr0, h0⟩ := hall 0 (by decide)
  obtain ⟨q1, hr1, h1⟩ := hall 1 (by decide)
  exact ⟨d, p, heap2, q0, q1, hd, hn, hl, hw, hs, hr0, hr1, h0 0 (by decide),
    h0 1 (by decide), h0 2 (by decide), h1 0 (by decide), h1 1 (by decide),
    h1 2 (by decide)⟩

end bbmp
